import Mathlib

/-!
Verification of the todo-plugin command layer and HTTP layer against the
specification.  The Go source (command handling in one file, HTTP plugin
handling in `server/plugin.go`) is shallowly embedded: every call the
handlers make into the List Manager interface or the Mattermost API is
recorded in an explicit effect trace, and the external collaborators
(List Manager implementation, user directory, preference store) are
modelled as oracle functions collected in an `Env` record.
-/

namespace Todo

/-- The `Issue` record (fields used by the embedded handlers). -/
structure Issue where
  id : String
  message : String
  description : String
  postID : String
deriving Repr, DecidableEq

/-- `ExtendedIssue` wraps an `Issue` with read-time metadata; only the
embedded handlers' use of the inner issue matters here. -/
structure ExtendedIssue where
  issue : Issue
deriving Repr, DecidableEq

/-- A Mattermost user as returned by the user directory. -/
structure User where
  id : String
  username : String
deriving Repr, DecidableEq

/-- One invocation of a List Manager interface method, with its arguments.
The constructors mirror the `ListManager` interface of `server/plugin.go`. -/
inductive LMCall where
  | addIssue (userID message description postID : String)
  | sendIssue (senderID receiverID message description postID : String)
  | getIssueList (userID listID : String)
  | completeIssue (userID issueID : String)
  | acceptIssue (userID issueID : String)
  | removeIssue (userID issueID : String)
  | popIssue (userID : String)
  | bumpIssue (userID issueID : String)
  | editIssue (userID issueID newMessage newDescription : String)
  | changeAssignment (issueID userID sendTo : String)
  | getUserName (userID : String)
deriving Repr, DecidableEq

/-- Modelled from the spec: the three list identifiers (My/In/Out lists) are
declared in the List Manager file, which is not among the provided sources;
only their identity as three distinct keys is relied upon. -/
def MyListKey : String := "my"

/-- Modelled from the spec: the In-list (inbox) key, see `MyListKey`. -/
def InListKey : String := "in"

/-- Modelled from the spec: the Out-list key, see `MyListKey`. -/
def OutListKey : String := "out"

def MyFlag : String := "my"

def InFlag : String := "in"

def OutFlag : String := "out"

def listHeaderMessage : String := " Todo List:\n\n"

/-- The help text returned by `getHelp` in the command file. -/
def getHelp : String := "지원되는 명령어:\n\nadd [메시지]\n\tTodo를 추가합니다.\n\n\t예: /todo add 회의록 작성 및 배포\n\nlist\n\t내 Todo 목록을 봅니다.\n\nlist [listName]\n\t특정 목록을 조회합니다\n\n\t예: /todo list in\n\t예: /todo list out\n\t예: /todo list my (/todo list와 동일)\n\npop\n\tTodo 목록의 맨 상단 항목을 제거합니다.\n\nsend [user] [message]\n\t[user]에게 Todo를 보냅니다.\n\nsettings summary [on, off]\n\t일일 리마인더에 대한 사용자 설정을 지정합니다\n\nsettings allow_incoming_task_requests [on, off]\n\t다른 사용자의 Todo Task 보내기 수락 여부를 설정합니다\n\nhelp\n\t사용법을 보여줍니다.\n"

def getSummarySetting (flag : Bool) : String :=
  if flag then "리마인더를 `on`으로 설정했습니다. **일일 리마인더를 수신하게 됩니다.**"
  else "리마인더를 `off`로 설정했습니다. **일일 리마인더를 수신하지 않습니다.**"

def getAllowIncomingTaskRequestsSetting (flag : Bool) : String :=
  if flag then "들어오는 Task 요청 허용을 `on`으로 설정했습니다. **다른 사용자가 Task 요청을 보낼 수 있습니다. 받은 요청을 수락/거부 할 수 있습니다.**"
  else "들어오는 Task 요청 허용을 `off`로 설정했습니다. **다른 사용자가 Task 요청을 보낼 수 없습니다. 다른 사용자에게는 내가 Task 요청을 접수 거부했다는 메시지를 받게됩니다**"

def getAllSettings (summaryFlag blockIncomingFlag : Bool) : String :=
  "현재 설정:\n\n" ++ getSummarySetting summaryFlag ++ "\n" ++ getAllowIncomingTaskRequestsSetting blockIncomingFlag ++ "\n\t"

/-- Modelled from the spec: `issuesListToString` lives in a repository file
not among the provided sources; per the spec the command interface formats
the returned list data as a chat reply.  Only the fact that it is a pure
function of the issue list is relied upon. -/
def issuesListToString (issues : List ExtendedIssue) : String :=
  String.intercalate "\n" (issues.map (fun i => i.issue.message))

/-- The oracle environment: results of every external call the embedded
handlers can make (List Manager operations, user directory, preference and
reminder storage, bot-post outcomes, current time). -/
structure Env where
  addIssue : String → String → String → String → Except String Issue
  sendIssue : String → String → String → String → String → Except String String
  getIssueList : String → String → Except String (List ExtendedIssue)
  completeIssue : String → String → Except String (Issue × String × String)
  acceptIssue : String → String → Except String (String × String)
  removeIssue : String → String → Except String (Issue × String × Bool × String)
  popIssue : String → Except String (Issue × String)
  bumpIssue : String → String → Except String (String × String × String)
  editIssue : String → String → String → String → Except String (String × String × String)
  changeAssignment : String → String → String → Except String (String × String)
  getUserName : String → String
  getUserByUsername : String → Except String User
  getAllowIncomingTaskRequestsPreference : String → Except String Bool
  getReminderPreference : String → Bool
  saveReminderPreference : String → Bool → Option String
  saveAllowIncomingTaskRequestsPreference : String → Bool → Option String
  getLastReminderTimeForUser : String → Except String Int
  saveLastReminderTimeForUser : String → Option String
  replyPostBot : String → String → String → Option String
  nowMillis : Int
  hideTeamSidebar : Option Bool

/-- The `model.CommandArgs` fields the command handlers read. -/
structure CommandArgs where
  userId : String
  channelId : String
  command : String
deriving Repr, DecidableEq

/-- Effect trace of one command execution: List Manager calls in order,
ephemeral replies to the invoking user, error logs, websocket refresh
events, bot direct messages, custom DMs, thread replies, telemetry. -/
structure CmdEffects where
  lmCalls : List LMCall := []
  posts : List String := []
  logs : List String := []
  refreshes : List (String × List String) := []
  dms : List (String × String) := []
  customDMs : List (String × String × String × String) := []
  replies : List (String × String × String) := []
  tracks : List String := []
deriving Repr, DecidableEq

/-- Result of one command handler: its effects plus the `(bool, error)`
pair the Go handler returns to `ExecuteCommand`. -/
structure CmdOut where
  fx : CmdEffects
  isUserError : Bool
  err : Option String
deriving Repr, DecidableEq

/-- `postReplyIfNeeded`: replies in the thread when a post ID is present,
logging a failure of the bot reply.  Returns (replies, logs). -/
def postReplyIfNeeded (env : Env) (postID msg todo : String) :
    List (String × String × String) × List String :=
  if postID = "" then ([], [])
  else
    match env.replyPostBot postID msg todo with
    | none => ([(postID, msg, todo)], [])
    | some e => ([(postID, msg, todo)], [e])

/-- `runAddCommand` embedded: joins the arguments into a message, guards the
empty message, calls `AddIssue`, then fetches the My-list to render it. -/
def runAddCommand (env : Env) (args : List String) (extra : CommandArgs) : CmdOut :=
  let message := String.intercalate " " args
  if message = "" then
    { fx := { posts := ["Task를 추가하세요."] }, isUserError := false, err := none }
  else
    match env.addIssue extra.userId message "" "" with
    | .error e =>
      { fx := { lmCalls := [.addIssue extra.userId message "" ""] },
        isUserError := false, err := some e }
    | .ok newIssue =>
      let calls0 : List LMCall := [.addIssue extra.userId message "" ""]
      let responseMessage := "Todo가 추가되었습니다."
      match env.getIssueList extra.userId MyListKey with
      | .error e =>
        { fx := { lmCalls := calls0 ++ [.getIssueList extra.userId MyListKey],
                  tracks := ["add_issue:command"],
                  refreshes := [(extra.userId, [MyListKey])],
                  logs := [e], posts := [responseMessage] },
          isUserError := false, err := none }
      | .ok issues =>
        let issueIncluded := issues.any (fun i => newIssue.id == i.issue.id)
        let issues := if issueIncluded then issues else issues ++ [{ issue := newIssue }]
        { fx := { lmCalls := calls0 ++ [.getIssueList extra.userId MyListKey],
                  tracks := ["add_issue:command"],
                  refreshes := [(extra.userId, [MyListKey])],
                  posts := [responseMessage ++ listHeaderMessage ++ issuesListToString issues] },
          isUserError := false, err := none }

/-- The second half of `runListCommand`: fetch the selected list and render
it (or pass the fetch error to the dispatcher). -/
def listFetch (env : Env) (extra : CommandArgs) (listID header : String) : CmdOut :=
  match env.getIssueList extra.userId listID with
  | .error e =>
    { fx := { lmCalls := [.getIssueList extra.userId listID] },
      isUserError := false, err := some e }
  | .ok issues =>
    { fx := { lmCalls := [.getIssueList extra.userId listID],
              refreshes := [(extra.userId, [MyListKey, OutListKey, InListKey])],
              posts := [header ++ issuesListToString issues] },
      isUserError := false, err := none }

/-- `runListCommand` embedded: maps the optional list flag to a list key (an
unknown flag yields the help text as a user-classified reply) and calls
`GetIssueList` via `listFetch`. -/
def runListCommand (env : Env) (args : List String) (extra : CommandArgs) : CmdOut :=
  let selection : Option (String × String) :=
    match args with
    | [] => some (MyListKey, "Todo 목록:\n\n")
    | f :: _ =>
      if f = MyFlag then some (MyListKey, "Todo 목록:\n\n")
      else if f = InFlag then some (InListKey, "받은 Todo 목록:\n\n")
      else if f = OutFlag then some (OutListKey, "보낸 Todo 목록:\n\n")
      else none
  match selection with
  | none => { fx := { posts := [getHelp] }, isUserError := true, err := none }
  | some (listID, header) => listFetch env extra listID header

/-- `runPopCommand` embedded: pops the head of My-list; the error whose text
is exactly "cannot find issue" is mapped to a friendly reply, any other
error is returned to the dispatcher; on success the sender of a linked
issue is notified and the refreshed My-list is rendered. -/
def runPopCommand (env : Env) (_args : List String) (extra : CommandArgs) : CmdOut :=
  match env.popIssue extra.userId with
  | .error e =>
    if e = "cannot find issue" then
      { fx := { lmCalls := [.popIssue extra.userId], posts := ["제거할 Todo가 없습니다."] },
        isUserError := false, err := none }
    else
      { fx := { lmCalls := [.popIssue extra.userId] }, isUserError := false, err := some e }
  | .ok (issue, foreignID) =>
    let userName := env.getUserName extra.userId
    let foreignFx : List (String × List String) × List (String × String) :=
      if foreignID = "" then ([], [])
      else ([(foreignID, [OutListKey])],
            [(foreignID, "@" ++ userName ++ "이(가) 내가 보낸 Todo를 삭제했습니다: " ++ issue.message)])
    let responseMessage := "맨 위에 있는 Todo 항목을 제거했습니다."
    let replyMessage := "@" ++ userName ++ "이(가) 이 스레드에 첨부된 Todo 맨 위 항목을 제거했습니다"
    let rp := postReplyIfNeeded env issue.postID replyMessage issue.message
    let calls0 : List LMCall := [.popIssue extra.userId, .getUserName extra.userId]
    match env.getIssueList extra.userId MyListKey with
    | .error e =>
      { fx := { lmCalls := calls0 ++ [.getIssueList extra.userId MyListKey],
                refreshes := foreignFx.1 ++ [(extra.userId, [MyListKey])],
                dms := foreignFx.2,
                replies := rp.1,
                logs := rp.2 ++ [e],
                posts := [responseMessage] },
        isUserError := false, err := none }
    | .ok issues =>
      { fx := { lmCalls := calls0 ++ [.getIssueList extra.userId MyListKey],
                refreshes := foreignFx.1 ++ [(extra.userId, [MyListKey])],
                dms := foreignFx.2,
                replies := rp.1,
                logs := rp.2,
                posts := [responseMessage ++ listHeaderMessage ++ issuesListToString issues] },
        isUserError := false, err := none }

/-- Strip a leading `@` from a username argument, as the send command does
(the Go code tests the first byte and drops it; `@` is a single byte). -/
def stripAt (s : String) : String :=
  match s.toList with
  | '@' :: rest => String.mk rest
  | _ => s

/-- `runSendCommand` embedded: resolves the receiver, degrades a self-send
to `runAddCommand`, consults the receiver's allow-incoming preference
(defaulting to allowed when the read fails), and only then calls
`SendIssue`. -/
def runSendCommand (env : Env) (args : List String) (extra : CommandArgs) : CmdOut :=
  match args with
  | [] =>
    { fx := { posts := ["반드시 유효한 사용자와 메시지를 지정해야합니다.\n" ++ getHelp] },
      isUserError := false, err := none }
  | [_] =>
    { fx := { posts := ["반드시 유효한 사용자와 메시지를 지정해야합니다.\n" ++ getHelp] },
      isUserError := false, err := none }
  | a0 :: a1 :: restTail =>
    let userName := stripAt a0
    match env.getUserByUsername userName with
    | .error _ =>
      { fx := { posts := ["유효한 사용자를 지정하세요.\n" ++ getHelp] },
        isUserError := false, err := none }
    | .ok receiver =>
      if receiver.id = extra.userId then
        runAddCommand env (a1 :: restTail) extra
      else
        let prefRead := env.getAllowIncomingTaskRequestsPreference receiver.id
        let pref := match prefRead with
          | .error _ => true
          | .ok b => b
        let prefLogs : List String := match prefRead with
          | .error _ => ["들어오는 Task 요청 허용에 대한 설정 확인 시 오류가 발생했습니다, err="]
          | .ok _ => []
        if pref = false then
          { fx := { logs := prefLogs,
                    posts := ["@" ++ userName ++ "은(는) Todo 요청을 차단 중입니다"] },
            isUserError := false, err := none }
        else
          let message := String.intercalate " " (a1 :: restTail)
          match env.sendIssue extra.userId receiver.id message "" "" with
          | .error e =>
            { fx := { lmCalls := [.sendIssue extra.userId receiver.id message "" ""],
                      logs := prefLogs },
              isUserError := false, err := some e }
          | .ok receiverIssueID =>
            let senderName := env.getUserName extra.userId
            { fx := { lmCalls := [.sendIssue extra.userId receiver.id message "" "",
                                  .getUserName extra.userId],
                      logs := prefLogs,
                      tracks := ["send_issue:command"],
                      refreshes := [(extra.userId, [OutListKey]), (receiver.id, [InListKey])],
                      customDMs := [(receiver.id,
                        "@" ++ senderName ++ "(으)로부터 새 Todo 요청을 받았습니다",
                        message, receiverIssueID)],
                      posts := ["@" ++ userName ++ "에게 Todo를 보냈습니다."] },
              isUserError := false, err := none }

/-- `runSettingsCommand` embedded: reads/writes the summary and
allow-incoming preferences, which are plugin key-value settings, not List
Manager operations. -/
def runSettingsCommand (env : Env) (args : List String) (extra : CommandArgs) : CmdOut :=
  match args with
  | [] =>
    let cur := env.getReminderPreference extra.userId
    let allowRead := env.getAllowIncomingTaskRequestsPreference extra.userId
    let allow := match allowRead with
      | .error _ => true
      | .ok b => b
    let allowLogs : List String := match allowRead with
      | .error _ => ["들어오는 Task 요청 허용에 대한 설정 확인 시 오류가 발생했습니다, err="]
      | .ok _ => []
    { fx := { logs := allowLogs, posts := [getAllSettings cur allow] },
      isUserError := false, err := none }
  | setting :: rest =>
    if setting = "summary" then
      match rest with
      | [] =>
        { fx := { posts := [getSummarySetting (env.getReminderPreference extra.userId)] },
          isUserError := false, err := none }
      | [v] =>
        if v = "on" then
          match env.saveReminderPreference extra.userId true with
          | some e =>
            { fx := { logs := [e] }, isUserError := false, err := some "리마인더 설정 저장 오류입니다" }
          | none =>
            { fx := { posts := ["이제부터 일일 요약을 수신합니다."] }, isUserError := false, err := none }
        else if v = "off" then
          match env.saveReminderPreference extra.userId false with
          | some e =>
            { fx := { logs := [e] }, isUserError := false, err := some "리마인더 설정 저장 오류입니다" }
          | none =>
            { fx := { posts := ["이제부터 일일 요약을 수신하지 않습니다."] }, isUserError := false, err := none }
        else
          { fx := {}, isUserError := true,
            err := some "유효하지 않은 입력 값입니다. \"settings summary\"에 허용되는 값은 `on` 또는 `off`입니다" }
      | _ :: _ :: _ =>
        { fx := {}, isUserError := true, err := some "너무 많은 인수들입니다" }
    else if setting = "allow_incoming_task_requests" then
      match rest with
      | [] =>
        let allowRead := env.getAllowIncomingTaskRequestsPreference extra.userId
        let allow := match allowRead with
          | .error _ => true
          | .ok b => b
        let allowLogs : List String := match allowRead with
          | .error _ => ["들어오는 Task 요청 승인에 대한 설정을 읽을 수 없습니다, err="]
          | .ok _ => []
        { fx := { logs := allowLogs, posts := [getAllowIncomingTaskRequestsSetting allow] },
          isUserError := false, err := none }
      | [v] =>
        if v = "on" then
          match env.saveAllowIncomingTaskRequestsPreference extra.userId true with
          | some e =>
            { fx := { logs := [e] }, isUserError := false, err := some "block_incoming 설정 저장 오류" }
          | none =>
            { fx := { posts := ["다른 사용자들이 Task 요청을 보낼 수 있습니다. 받은 요청은 수락/거부할 수 있습니다"] },
              isUserError := false, err := none }
        else if v = "off" then
          match env.saveAllowIncomingTaskRequestsPreference extra.userId false with
          | some e =>
            { fx := { logs := [e] }, isUserError := false, err := some "block_incoming 설정 저장 오류" }
          | none =>
            { fx := { posts := ["다른 사용자들이 Task 요청을 보낼 수 없습니다. 요청을 보낸 사용자는 내가 Task 요청을 접수 거부했다는 메시지를 받게됩니다."] },
              isUserError := false, err := none }
        else
          { fx := {}, isUserError := true,
            err := some "유효하지 않은 입력, \"settings allow_incoming_task_requests\"에 허용되는 값은 `on` 또는 `off`입니다." }
      | _ :: _ :: _ =>
        { fx := {}, isUserError := true, err := some "너무 많은 인수들입니다" }
    else
      { fx := {}, isUserError := true,
        err := some ("setting `" ++ setting ++ "` 식별되지 않습니다") }

/-- Accumulator for `tokenize`: splits a character list into maximal runs
of non-whitespace characters. -/
def splitWSAux : List Char → List Char → List String
  | acc, [] => if acc.isEmpty then [] else [String.mk acc.reverse]
  | acc, c :: cs =>
    if c.isWhitespace then
      if acc.isEmpty then splitWSAux [] cs
      else String.mk acc.reverse :: splitWSAux [] cs
    else splitWSAux (c :: acc) cs

/-- Whitespace tokenisation of the raw command string, matching the Go
trim + collapse-whitespace + split (with the all-whitespace command
yielding no tokens, which the dispatcher treats like the bare command). -/
def tokenize (s : String) : List String :=
  splitWSAux [] s.toList

/-- Which handler `ExecuteCommand` assigns. -/
inductive HandlerTag where
  | add | list | pop | send | settings
deriving Repr, DecidableEq

/-- Handler lookup table of `ExecuteCommand`. -/
def runHandler : HandlerTag → Env → List String → CommandArgs → CmdOut
  | .add => runAddCommand
  | .list => runListCommand
  | .pop => runPopCommand
  | .send => runSendCommand
  | .settings => runSettingsCommand

/-- The dispatcher's switch: the bare `/todo` runs the list handler; a
known keyword selects its handler and the rest of the tokens; an unknown
keyword (`none`) falls through to the help reply. -/
def dispatch : List String → Option (HandlerTag × List String × String)
  | [] => some (.list, [], "")
  | [_] => some (.list, [], "")
  | _ :: cmd :: rest =>
    if cmd = "add" then some (.add, rest, cmd)
    else if cmd = "list" then some (.list, rest, cmd)
    else if cmd = "pop" then some (.pop, rest, cmd)
    else if cmd = "send" then some (.send, rest, cmd)
    else if cmd = "settings" then some (.settings, rest, cmd)
    else none

/-- The user-error reply format of `ExecuteCommand`. -/
def userErrorReply (e : String) : String :=
  "__Error: " ++ e ++ ".__\n\n사용법을 보려면 `/todo help`를 실행하세요."

/-- The generic apology `ExecuteCommand` posts for internal errors. -/
def internalErrorReply : String :=
  "알 수 없는 오류가 발생했습니다. 시스템 관리자에게 도움을 요청하세요."

/-- `ExecuteCommand` embedded: tokenises, dispatches, runs the handler, and
classifies a non-nil error by the handler's boolean flag. -/
def executeCommand (env : Env) (extra : CommandArgs) : CmdEffects :=
  let tokens := tokenize extra.command
  match dispatch tokens with
  | none =>
    let cmd := (tokens.drop 1).headD ""
    let track := if cmd = "help" then "command:help" else "command:not found"
    { posts := [getHelp], tracks := [track] }
  | some (tag, rest, trackName) =>
    let out := runHandler tag env rest extra
    let fx := { out.fx with tracks := ("command:" ++ trackName) :: out.fx.tracks }
    match out.err with
    | none => fx
    | some e =>
      if out.isUserError then
        { fx with posts := fx.posts ++ [userErrorReply e] }
      else
        { fx with logs := fx.logs ++ [e], posts := fx.posts ++ [internalErrorReply] }

/-- The fields of an inbound HTTP request the handlers read.  A JSON body
that fails to decode is modelled by `bodyValid = false`; the named body
fields model the decoded request struct of each handler. -/
structure HTTPRequest where
  path : String
  userIDHeader : String
  bodyValid : Bool := true
  message : String := ""
  description : String := ""
  sendTo : String := ""
  postID : String := ""
  reqID : String := ""
  event : String := ""
  listQuery : String := ""
  reminderQuery : String := ""
  timezoneOffsetHeader : String := ""
  method : String := "GET"
deriving Repr, DecidableEq

/-- Structured success payload written by a handler. -/
inductive HTTPData where
  | issues (l : List ExtendedIssue)
  | config (hideTeamSidebar : Bool)
deriving Repr, DecidableEq

/-- Effect trace of one HTTP handler run: explicit status when one is
written, the `handleErrorWithCode` body (title, details), a plain
`http.Error` text, the structured data written, and the same side-effect
channels as the command layer. -/
structure HTTPOut where
  status : Option Nat := none
  errorBody : Option (String × String) := none
  plainError : Option String := none
  data : Option HTTPData := none
  lmCalls : List LMCall := []
  logs : List String := []
  refreshes : List (String × List String) := []
  dms : List (String × String) := []
  customDMs : List (String × String × String × String) := []
  replies : List (String × String × String) := []
  tracks : List String := []
  saves : List String := []
deriving Repr, DecidableEq

/-- The 401 response every handler writes when the `Mattermost-User-ID`
header is empty. -/
def unauthorized : HTTPOut :=
  { status := some 401, plainError := some "Not authorized" }

/-- Modelled stand-in for the JSON decoder's error text (the decoder is
library code outside the repository); only its presence as the details
string of a 400 response matters. -/
def jsonDecodeErrText : String := "unexpected EOF"

/-- A 400 decode-failure response with the given title. -/
def decodeFailure (title : String) : HTTPOut :=
  { status := some 400, errorBody := some (title, jsonDecodeErrText),
    logs := ["Unable to decode JSON err=" ++ jsonDecodeErrText] }

/-- `handleAdd` embedded: an empty `send_to` adds to the caller's own list;
a `send_to` naming the caller degrades to `AddIssue`; otherwise the
receiver's allow-incoming preference gates `SendIssue`. -/
def handleAdd (env : Env) (r : HTTPRequest) : HTTPOut :=
  if r.userIDHeader = "" then unauthorized
  else if r.bodyValid = false then decodeFailure "Unable to decode JSON"
  else
    let userID := r.userIDHeader
    let senderName := env.getUserName userID
    let calls0 : List LMCall := [.getUserName userID]
    if r.sendTo = "" then
      match env.addIssue userID r.message r.description r.postID with
      | .error e =>
        { lmCalls := calls0 ++ [.addIssue userID r.message r.description r.postID],
          logs := ["Unable to add issue err=" ++ e],
          status := some 500, errorBody := some ("Unable to add issue", e) }
      | .ok _ =>
        let rp := postReplyIfNeeded env r.postID
          ("@" ++ senderName ++ "이(가) 이 스레드에 Todo를 생성했습니다") r.message
        { lmCalls := calls0 ++ [.addIssue userID r.message r.description r.postID],
          tracks := ["add_issue:webapp"],
          refreshes := [(userID, [MyListKey])],
          replies := rp.1, logs := rp.2 }
    else
      match env.getUserByUsername r.sendTo with
      | .error e =>
        { lmCalls := calls0,
          logs := ["username not valid, err=" ++ e],
          status := some 500, errorBody := some ("Unable to find user", e) }
      | .ok receiver =>
        if receiver.id = userID then
          match env.addIssue userID r.message r.description r.postID with
          | .error e =>
            { lmCalls := calls0 ++ [.addIssue userID r.message r.description r.postID],
              logs := ["Unable to add issue err=" ++ e],
              status := some 500, errorBody := some ("Unable to add issue", e) }
          | .ok _ =>
            let rp := postReplyIfNeeded env r.postID
              ("@" ++ senderName ++ "이(가) 이 스레드에 Todo를 생성했습니다.") r.message
            { lmCalls := calls0 ++ [.addIssue userID r.message r.description r.postID],
              tracks := ["add_issue:webapp"],
              refreshes := [(userID, [MyListKey])],
              replies := rp.1, logs := rp.2 }
        else
          let prefRead := env.getAllowIncomingTaskRequestsPreference receiver.id
          let pref := match prefRead with
            | .error _ => true
            | .ok b => b
          let prefLogs : List String := match prefRead with
            | .error _ => ["Error when getting allow incoming task request preference, err="]
            | .ok _ => []
          if pref = false then
            { lmCalls := calls0, logs := prefLogs,
              dms := [(userID, "@" ++ receiver.username ++ "은(는) Todo 요청을 차단했습니다.")] }
          else
            match env.sendIssue userID receiver.id r.message r.description r.postID with
            | .error e =>
              { lmCalls := calls0 ++ [.sendIssue userID receiver.id r.message r.description r.postID],
                logs := prefLogs ++ ["Unable to send issue err=" ++ e],
                status := some 500, errorBody := some ("Unable to send issue", e) }
            | .ok issueID =>
              let rp := postReplyIfNeeded env r.postID
                ("@" ++ senderName ++ "이(가) @" ++ r.sendTo ++ "에게 이 스레드에서 대한 Todo를 보냈습니다") r.message
              { lmCalls := calls0 ++ [.sendIssue userID receiver.id r.message r.description r.postID],
                logs := prefLogs ++ rp.2,
                tracks := ["send_issue:webapp"],
                refreshes := [(userID, [OutListKey]), (receiver.id, [InListKey])],
                customDMs := [(receiver.id,
                  "@" ++ senderName ++ "(으)로부터 새 Todo 항목을 받았습니다.", r.message, issueID)],
                replies := rp.1 }

/-- Day number of a millisecond timestamp in a fixed zone with the given
offset in seconds; two timestamps share a civil date in that zone iff they
share a day number. -/
def localDayNumber (millis zoneOffsetSec : Int) : Int :=
  (Int.tdiv millis 1000 + zoneOffsetSec).fdiv 86400

/-- The reminder-window test of `handleList`: at least one hour elapsed and
the local civil date changed. -/
def reminderDue (now last zoneOffsetSec : Int) : Bool :=
  decide (3600000 ≤ now - last) &&
    decide (localDayNumber now zoneOffsetSec ≠ localDayNumber last zoneOffsetSec)

/-- The list-query mapping of `handleList`: `out` and `in` select those
lists; anything else (including the empty value) falls back to My-list. -/
def httpListKey (listInput : String) : String :=
  if listInput = OutFlag then OutListKey
  else if listInput = InFlag then InListKey
  else MyListKey

/-- `handleList` embedded, including the daily-reminder side branch. -/
def handleList (env : Env) (r : HTTPRequest) : HTTPOut :=
  if r.userIDHeader = "" then unauthorized
  else
    let userID := r.userIDHeader
    let listID := httpListKey r.listQuery
    match env.getIssueList userID listID with
    | .error e =>
      { lmCalls := [.getIssueList userID listID],
        logs := ["Unable to get issues for user err=" ++ e],
        status := some 500, errorBody := some ("Unable to get issues for user", e) }
    | .ok issues =>
      let base : HTTPOut := { lmCalls := [.getIssueList userID listID] }
      if 0 < issues.length ∧ r.reminderQuery = "true" ∧ env.getReminderPreference userID then
        match env.getLastReminderTimeForUser userID with
        | .error e =>
          { base with logs := ["Unable to send reminder err=" ++ e],
                      status := some 500, errorBody := some ("Unable to send reminder", e) }
        | .ok lastReminderAt =>
          let offset := (r.timezoneOffsetHeader.toInt?).getD 0
          if reminderDue env.nowMillis lastReminderAt (-60 * offset) then
            let saveLogs : List String := match env.saveLastReminderTimeForUser userID with
              | some e => ["Unable to save last reminder for user err=" ++ e]
              | none => []
            { base with dms := [(userID, "일일 리마인더:\n\n" ++ issuesListToString issues)],
                        tracks := ["daily_summary"],
                        saves := ["last_reminder:" ++ userID],
                        logs := saveLogs,
                        data := some (.issues issues) }
          else
            { base with data := some (.issues issues) }
      else
        { base with data := some (.issues issues) }

/-- `handleEdit` embedded. -/
def handleEdit (env : Env) (r : HTTPRequest) : HTTPOut :=
  if r.userIDHeader = "" then unauthorized
  else if r.bodyValid = false then decodeFailure "Unable to decode JSON"
  else
    let userID := r.userIDHeader
    match env.editIssue userID r.reqID r.message r.description with
    | .error e =>
      { lmCalls := [.editIssue userID r.reqID r.message r.description],
        logs := ["Unable to edit message: err=" ++ e],
        status := some 500, errorBody := some ("Unable to edit issue", e) }
    | .ok (foreignUserID, list, oldMessage) =>
      let base : HTTPOut :=
        { lmCalls := [.editIssue userID r.reqID r.message r.description],
          tracks := ["edit_issue"],
          refreshes := [(userID, [list])] }
      if foreignUserID = "" then base
      else
        let lists := if list = OutListKey then [MyListKey, InListKey] else [OutListKey]
        let userName := env.getUserName userID
        { base with
            lmCalls := base.lmCalls ++ [.getUserName userID],
            refreshes := base.refreshes ++ [(foreignUserID, lists)],
            dms := [(foreignUserID,
              "@" ++ userName ++ "이(가) Todo를 수정했습니다.\n수정 전:\n" ++ oldMessage ++
                "\n수정 후:\n" ++ r.message)] }

/-- `handleChangeAssignment` embedded. -/
def handleChangeAssignment (env : Env) (r : HTTPRequest) : HTTPOut :=
  if r.userIDHeader = "" then unauthorized
  else if r.bodyValid = false then decodeFailure "Unable to decode JSON"
  else if r.sendTo = "" then
    { status := some 400, plainError := some "No user specified" }
  else
    let userID := r.userIDHeader
    match env.getUserByUsername r.sendTo with
    | .error e =>
      { logs := ["username not valid, err=" ++ e],
        status := some 404, errorBody := some ("Unable to find user", e) }
    | .ok receiver =>
      match env.changeAssignment r.reqID userID receiver.id with
      | .error e =>
        { lmCalls := [.changeAssignment r.reqID userID receiver.id],
          logs := ["Unable to change the assignment of an issue: err=" ++ e],
          status := some 500, errorBody := some ("Unable to change the assignment", e) }
      | .ok (issueMessage, oldOwner) =>
        let userName := env.getUserName userID
        let base : HTTPOut :=
          { lmCalls := [.changeAssignment r.reqID userID receiver.id, .getUserName userID],
            tracks := ["change_assignment"],
            refreshes := [(userID, [MyListKey, OutListKey])] }
        let withReceiver :=
          if receiver.id = userID then base
          else
            { base with
                refreshes := base.refreshes ++ [(receiver.id, [InListKey])],
                customDMs := [(receiver.id,
                  "@" ++ userName ++ "(으)로부터 새 Todo를 받았습니다.", issueMessage, r.reqID)] }
        if oldOwner = "" then withReceiver
        else
          { withReceiver with
              refreshes := withReceiver.refreshes ++ [(oldOwner, [InListKey, MyListKey])],
              dms := withReceiver.dms ++ [(oldOwner,
                "@" ++ userName ++ "(이)가 다음 Todo 담당자에서 나를 제외시켰습니다:\n" ++ issueMessage)] }

/-- `handleAccept` embedded. -/
def handleAccept (env : Env) (r : HTTPRequest) : HTTPOut :=
  if r.userIDHeader = "" then unauthorized
  else if r.bodyValid = false then decodeFailure "Unable to decode JSON"
  else
    let userID := r.userIDHeader
    match env.acceptIssue userID r.reqID with
    | .error e =>
      { lmCalls := [.acceptIssue userID r.reqID],
        logs := ["Unable to accept issue err=" ++ e],
        status := some 500, errorBody := some ("Unable to accept issue", e) }
    | .ok (todoMessage, sender) =>
      let userName := env.getUserName userID
      { lmCalls := [.acceptIssue userID r.reqID, .getUserName userID],
        tracks := ["accept_issue"],
        refreshes := [(userID, [MyListKey, InListKey]), (sender, [OutListKey])],
        dms := [(sender, "@" ++ userName ++ "이(가) 내가 보낸 Todo를 수락했습니다: " ++ todoMessage)] }

/-- `handleComplete` embedded. -/
def handleComplete (env : Env) (r : HTTPRequest) : HTTPOut :=
  if r.userIDHeader = "" then unauthorized
  else if r.bodyValid = false then decodeFailure "Unable to decode JSON"
  else
    let userID := r.userIDHeader
    match env.completeIssue userID r.reqID with
    | .error e =>
      { lmCalls := [.completeIssue userID r.reqID],
        logs := ["Unable to complete issue err=" ++ e],
        status := some 500, errorBody := some ("Unable to complete issue", e) }
    | .ok (issue, foreignID, listToUpdate) =>
      let userName := env.getUserName userID
      let rp := postReplyIfNeeded env issue.postID
        ("@" ++ userName ++ "이(가) 이 스레드에 연결된 Todo를 완료했습니다") issue.message
      let base : HTTPOut :=
        { lmCalls := [.completeIssue userID r.reqID, .getUserName userID],
          tracks := ["complete_issue"],
          refreshes := [(userID, [listToUpdate])],
          replies := rp.1, logs := rp.2 }
      if foreignID = "" then base
      else
        { base with
            refreshes := base.refreshes ++ [(foreignID, [OutListKey])],
            dms := [(foreignID,
              "@" ++ userName ++ "이(가) 내가 보낸 Todo를 완료했습니다: " ++ issue.message)] }

/-- `handleRemove` embedded: on a linked removal, the notification wording
and the foreign list refreshed are chosen by `isSender`. -/
def handleRemove (env : Env) (r : HTTPRequest) : HTTPOut :=
  if r.userIDHeader = "" then unauthorized
  else if r.bodyValid = false then decodeFailure "Unable to decode JSON"
  else
    let userID := r.userIDHeader
    match env.removeIssue userID r.reqID with
    | .error e =>
      { lmCalls := [.removeIssue userID r.reqID],
        logs := ["Unable to remove issue, err=" ++ e],
        status := some 500, errorBody := some ("Unable to remove issue", e) }
    | .ok (issue, foreignID, isSender, listToUpdate) =>
      let userName := env.getUserName userID
      let rp := postReplyIfNeeded env issue.postID
        ("@" ++ userName ++ "이(가) 이 스레드에 첨부된 Todo를 제거했습니다") issue.message
      let base : HTTPOut :=
        { lmCalls := [.removeIssue userID r.reqID, .getUserName userID],
          tracks := ["remove_issue"],
          refreshes := [(userID, [listToUpdate])],
          replies := rp.1, logs := rp.2 }
      if foreignID = "" then base
      else
        let message :=
          if isSender then "@" ++ userName ++ "이(가) 내가 보낸 Todo를 거절했습니다: " ++ issue.message
          else "@" ++ userName ++ "이(가) 내가 받은 Todo를 제거했습니다: " ++ issue.message
        let list := if isSender then OutListKey else InListKey
        { base with
            refreshes := base.refreshes ++ [(foreignID, [list])],
            dms := [(foreignID, message)] }

/-- `handleBump` embedded. -/
def handleBump (env : Env) (r : HTTPRequest) : HTTPOut :=
  if r.userIDHeader = "" then unauthorized
  else if r.bodyValid = false then decodeFailure "Unable to decode JSON"
  else
    let userID := r.userIDHeader
    match env.bumpIssue userID r.reqID with
    | .error e =>
      { lmCalls := [.bumpIssue userID r.reqID],
        logs := ["Unable to bump issue, err=" ++ e],
        status := some 500, errorBody := some ("Unable to bump issue", e) }
    | .ok (todoMessage, foreignUser, foreignIssueID) =>
      let base : HTTPOut :=
        { lmCalls := [.bumpIssue userID r.reqID], tracks := ["bump_issue"] }
      if foreignUser = "" then base
      else
        let userName := env.getUserName userID
        { base with
            lmCalls := base.lmCalls ++ [.getUserName userID],
            refreshes := [(foreignUser, [InListKey])],
            customDMs := [(foreignUser,
              "@" ++ userName ++ "이(가) 내가 받은 Todo를 강조했습니다.", todoMessage, foreignIssueID)] }

/-- `handleTelemetry` embedded. -/
def handleTelemetry (_env : Env) (r : HTTPRequest) : HTTPOut :=
  if r.userIDHeader = "" then unauthorized
  else if r.bodyValid = false then decodeFailure "Unable to decode JSON"
  else if r.event = "" then {}
  else { tracks := ["frontend:" ++ r.event] }

/-- `handleConfig` embedded. -/
def handleConfig (env : Env) (r : HTTPRequest) : HTTPOut :=
  if r.userIDHeader = "" then unauthorized
  else if r.method ≠ "GET" then
    { status := some 405, plainError := some "Invalid request method" }
  else
    match env.hideTeamSidebar with
    | some h => { data := some (.config h) }
    | none => {}

/-- The route table of `ServeHTTP`. -/
def serveHTTP (env : Env) (r : HTTPRequest) : HTTPOut :=
  if r.path = "/add" then handleAdd env r
  else if r.path = "/list" then handleList env r
  else if r.path = "/remove" then handleRemove env r
  else if r.path = "/complete" then handleComplete env r
  else if r.path = "/accept" then handleAccept env r
  else if r.path = "/bump" then handleBump env r
  else if r.path = "/telemetry" then handleTelemetry env r
  else if r.path = "/config" then handleConfig env r
  else if r.path = "/edit" then handleEdit env r
  else if r.path = "/change_assignment" then handleChangeAssignment env r
  else { status := some 404, plainError := some "404 page not found" }

/-- Whether a List Manager call mutates list state (everything except the
two read-only lookups). -/
def LMCall.isMutation : LMCall → Bool
  | .getIssueList _ _ => false
  | .getUserName _ => false
  | .addIssue _ _ _ _ => true
  | .sendIssue _ _ _ _ _ => true
  | .completeIssue _ _ => true
  | .acceptIssue _ _ => true
  | .removeIssue _ _ => true
  | .popIssue _ => true
  | .bumpIssue _ _ => true
  | .editIssue _ _ _ _ => true
  | .changeAssignment _ _ _ => true

/-- Whether a List Manager call is a core list operation (everything except
the `GetUserName` name lookup). -/
def LMCall.isCore : LMCall → Bool
  | .getUserName _ => false
  | .getIssueList _ _ => true
  | .addIssue _ _ _ _ => true
  | .sendIssue _ _ _ _ _ => true
  | .completeIssue _ _ => true
  | .acceptIssue _ _ => true
  | .removeIssue _ _ => true
  | .popIssue _ => true
  | .bumpIssue _ _ => true
  | .editIssue _ _ _ _ => true
  | .changeAssignment _ _ _ => true

/-- Number of mutating List Manager calls in a trace. -/
def mutCount (calls : List LMCall) : Nat :=
  (calls.filter (fun c => c.isMutation)).length

/-- The core (non-`GetUserName`) List Manager calls of an HTTP trace. -/
def coreCalls (o : HTTPOut) : List LMCall :=
  o.lmCalls.filter (fun c => c.isCore)

/-- A simple concrete oracle environment in which every external call
succeeds, used to evaluate the handlers on concrete inputs. -/
def baseEnv : Env where
  addIssue := fun _ m d p => .ok { id := "i1", message := m, description := d, postID := p }
  sendIssue := fun _ _ _ _ _ => .ok "r1"
  getIssueList := fun _ _ => .ok []
  completeIssue := fun _ _ => .ok ({ id := "i1", message := "hi", description := "", postID := "" }, "", MyListKey)
  acceptIssue := fun _ _ => .ok ("hi", "bob")
  removeIssue := fun _ _ => .ok ({ id := "i1", message := "hi", description := "", postID := "" }, "", false, MyListKey)
  popIssue := fun _ => .ok ({ id := "i1", message := "hi", description := "", postID := "" }, "")
  bumpIssue := fun _ _ => .ok ("hi", "bob", "f1")
  editIssue := fun _ _ _ _ => .ok ("", MyListKey, "old")
  changeAssignment := fun _ _ _ => .ok ("hi", "")
  getUserName := fun u => u
  getUserByUsername := fun n => .ok { id := "uid-" ++ n, username := n }
  getAllowIncomingTaskRequestsPreference := fun _ => .ok true
  getReminderPreference := fun _ => false
  saveReminderPreference := fun _ _ => none
  saveAllowIncomingTaskRequestsPreference := fun _ _ => none
  getLastReminderTimeForUser := fun _ => .ok 0
  saveLastReminderTimeForUser := fun _ => none
  replyPostBot := fun _ _ _ => none
  nowMillis := 0
  hideTeamSidebar := none

/-- `baseEnv` with an empty My-list, so `PopIssue` fails with the sentinel
error text. -/
def envPopEmpty : Env :=
  { baseEnv with popIssue := fun _ => .error "cannot find issue" }

/-- `baseEnv` with a storage failure inside `PopIssue`. -/
def envPopStorage : Env :=
  { baseEnv with popIssue := fun _ => .error "KV write conflict" }

/-- `baseEnv` in which every user declines incoming task requests. -/
def envBlocked : Env :=
  { baseEnv with getAllowIncomingTaskRequestsPreference := fun _ => .ok false }

def popArgs : CommandArgs := { userId := "alice", channelId := "town", command := "/todo pop" }

def addHiArgs : CommandArgs := { userId := "alice", channelId := "town", command := "/todo add hi" }

def addEmptyArgs : CommandArgs := { userId := "alice", channelId := "town", command := "/todo add" }

def badSettingsArgs : CommandArgs :=
  { userId := "alice", channelId := "town", command := "/todo settings summary maybe" }

/-- C1: when `PopIssue` fails with exactly the text "cannot find issue" the
pop command posts the friendly empty-list reply and reports no error at
all, while any other error text is returned with the user-error flag off,
so the dispatcher escalates it as an internal error (log plus apology).
The case split is literally on the error's message text. -/
theorem pop_error_string_detection (env : Env) (args : List String) (extra : CommandArgs)
    (e : String) (h : env.popIssue extra.userId = .error e) :
    (e = "cannot find issue" →
      runPopCommand env args extra =
        ⟨{ lmCalls := [.popIssue extra.userId], posts := ["제거할 Todo가 없습니다."] },
          false, none⟩) ∧
    (e ≠ "cannot find issue" →
      runPopCommand env args extra =
        ⟨{ lmCalls := [.popIssue extra.userId] }, false, some e⟩) ∧
    (e ≠ "cannot find issue" → tokenize extra.command = ["/todo", "pop"] →
      executeCommand env extra =
        { lmCalls := [.popIssue extra.userId], logs := [e],
          posts := [internalErrorReply], tracks := ["command:pop"] }) := by
  refine ⟨?_, ?_, ?_⟩
  · intro he
    subst he
    simp [runPopCommand, h]
  · intro hne
    simp [runPopCommand, h, hne]
  · intro hne htok
    simp [executeCommand, htok, dispatch, runHandler, runPopCommand, h, hne]

/-- Closed instance of `pop_error_string_detection`: both error texts at a
concrete user, discharging every hypothesis. -/
theorem pop_error_string_detection_witness :
    (runPopCommand envPopEmpty [] popArgs =
      ⟨{ lmCalls := [.popIssue "alice"], posts := ["제거할 Todo가 없습니다."] }, false, none⟩) ∧
    (runPopCommand envPopStorage [] popArgs =
      ⟨{ lmCalls := [.popIssue "alice"] }, false, some "KV write conflict"⟩) :=
  ⟨(pop_error_string_detection envPopEmpty [] popArgs "cannot find issue" rfl).1 rfl,
   (pop_error_string_detection envPopStorage [] popArgs "KV write conflict" rfl).2.1 (by decide)⟩

/-- C2: when a dispatched handler returns a non-nil error, `ExecuteCommand`
classifies it solely by the handler's boolean flag: a user error is posted
with the error text and the help hint, anything else is logged and answered
with the generic apology; the boolean dichotomy leaves no third outcome. -/
theorem dispatcher_error_classification (env : Env) (extra : CommandArgs)
    (tag : HandlerTag) (rest : List String) (trk : String) (e : String)
    (hd : dispatch (tokenize extra.command) = some (tag, rest, trk))
    (he : (runHandler tag env rest extra).err = some e) :
    ((runHandler tag env rest extra).isUserError = true →
      executeCommand env extra =
        { (runHandler tag env rest extra).fx with
            tracks := ("command:" ++ trk) :: (runHandler tag env rest extra).fx.tracks,
            posts := (runHandler tag env rest extra).fx.posts ++ [userErrorReply e] }) ∧
    ((runHandler tag env rest extra).isUserError = false →
      executeCommand env extra =
        { (runHandler tag env rest extra).fx with
            tracks := ("command:" ++ trk) :: (runHandler tag env rest extra).fx.tracks,
            logs := (runHandler tag env rest extra).fx.logs ++ [e],
            posts := (runHandler tag env rest extra).fx.posts ++ [internalErrorReply] }) := by
  constructor
  · intro hu
    simp [executeCommand, hd, he, hu]
  · intro hu
    simp [executeCommand, hd, he, hu]

/-- Closed instance of `dispatcher_error_classification`: the settings
command with an invalid value is a user error and is posted with the help
hint. -/
theorem dispatcher_error_classification_witness :
    executeCommand baseEnv badSettingsArgs =
      { tracks := ["command:settings"],
        posts := [userErrorReply "유효하지 않은 입력 값입니다. \"settings summary\"에 허용되는 값은 `on` 또는 `off`입니다"] } :=
  (dispatcher_error_classification baseEnv badSettingsArgs .settings ["summary", "maybe"]
    "settings" "유효하지 않은 입력 값입니다. \"settings summary\"에 허용되는 값은 `on` 또는 `off`입니다"
    (by decide) (by decide)).1 (by decide)

theorem mutCount_runAddCommand (env : Env) (args : List String) (extra : CommandArgs) :
    mutCount (runAddCommand env args extra).fx.lmCalls ≤ 1 := by
  unfold runAddCommand
  by_cases hm : String.intercalate " " args = ""
  · simp [hm, mutCount, List.filter]
  · rw [if_neg hm]
    cases h1 : env.addIssue extra.userId (String.intercalate " " args) "" "" with
    | error e => simp [h1, mutCount, List.filter, LMCall.isMutation]
    | ok ni =>
      cases h2 : env.getIssueList extra.userId MyListKey with
      | error e2 => simp [h1, h2, mutCount, List.filter, LMCall.isMutation]
      | ok iss => simp [h1, h2, mutCount, List.filter, LMCall.isMutation]

theorem mutCount_listFetch (env : Env) (extra : CommandArgs) (listID header : String) :
    mutCount (listFetch env extra listID header).fx.lmCalls = 0 := by
  unfold listFetch
  cases env.getIssueList extra.userId listID <;>
    simp [mutCount, List.filter, LMCall.isMutation]

theorem mutCount_runListCommand (env : Env) (args : List String) (extra : CommandArgs) :
    mutCount (runListCommand env args extra).fx.lmCalls = 0 := by
  unfold runListCommand
  repeat' split
  all_goals first
    | apply mutCount_listFetch
    | simp [mutCount, List.filter]

theorem mutCount_runPopCommand (env : Env) (args : List String) (extra : CommandArgs) :
    mutCount (runPopCommand env args extra).fx.lmCalls ≤ 1 := by
  unfold runPopCommand
  cases h1 : env.popIssue extra.userId with
  | error e =>
    by_cases hce : e = "cannot find issue" <;>
      simp [h1, hce, mutCount, List.filter, LMCall.isMutation]
  | ok p =>
    obtain ⟨issue, foreignID⟩ := p
    cases h2 : env.getIssueList extra.userId MyListKey with
    | error e2 => simp [h1, h2, mutCount, List.filter, LMCall.isMutation]
    | ok iss => simp [h1, h2, mutCount, List.filter, LMCall.isMutation]

theorem mutCount_runSendCommand (env : Env) (args : List String) (extra : CommandArgs) :
    mutCount (runSendCommand env args extra).fx.lmCalls ≤ 1 := by
  unfold runSendCommand
  match args with
  | [] => simp [mutCount, List.filter]
  | [a] => simp [mutCount, List.filter]
  | a0 :: a1 :: rest =>
    cases h1 : env.getUserByUsername (stripAt a0) with
    | error e => simp [h1, mutCount, List.filter]
    | ok receiver =>
      by_cases hself : receiver.id = extra.userId
      · simpa [h1, hself] using mutCount_runAddCommand env (a1 :: rest) extra
      · simp only [h1, if_neg hself]
        split
        · simp [mutCount, List.filter]
        · cases h2 : env.sendIssue extra.userId receiver.id
              (String.intercalate " " (a1 :: rest)) "" "" with
          | error e => simp [h2, mutCount, List.filter, LMCall.isMutation]
          | ok rid => simp [h2, mutCount, List.filter, LMCall.isMutation]

theorem mutCount_runSettingsCommand (env : Env) (args : List String) (extra : CommandArgs) :
    mutCount (runSettingsCommand env args extra).fx.lmCalls = 0 := by
  unfold runSettingsCommand
  match args with
  | [] => simp [mutCount, List.filter]
  | setting :: rest =>
    repeat' split
    all_goals simp [mutCount, List.filter]

theorem mutCount_runHandler (tag : HandlerTag) (env : Env) (args : List String)
    (extra : CommandArgs) :
    mutCount (runHandler tag env args extra).fx.lmCalls ≤ 1 := by
  cases tag
  · exact mutCount_runAddCommand env args extra
  · exact Nat.le_of_eq (mutCount_runListCommand env args extra) |>.trans (Nat.zero_le 1)
  · exact mutCount_runPopCommand env args extra
  · exact mutCount_runSendCommand env args extra
  · exact Nat.le_of_eq (mutCount_runSettingsCommand env args extra) |>.trans (Nat.zero_le 1)

/-- C3 counterexample: the add command, on an input where everything
succeeds, invokes two List Manager operations (`AddIssue` and then
`GetIssueList` to render the updated list), not exactly one. -/
theorem add_command_two_lm_calls :
    (executeCommand baseEnv addHiArgs).lmCalls =
      [.addIssue "alice" "hi" "" "", .getIssueList "alice" MyListKey] ∧
    (executeCommand baseEnv addHiArgs).lmCalls.length ≠ 1 := by
  constructor
  · rfl
  · decide

/-- C3 amended: every chat command execution performs at most one mutating
List Manager operation; the add/pop/list commands may additionally invoke
the read-only `GetIssueList`/`GetUserName` to format the reply, and the
settings command invokes none at all. -/
theorem command_at_most_one_mutation (env : Env) (extra : CommandArgs) :
    mutCount (executeCommand env extra).lmCalls ≤ 1 := by
  unfold executeCommand
  cases hd : dispatch (tokenize extra.command) with
  | none => simp [hd, mutCount, List.filter]
  | some v =>
    obtain ⟨tag, rest, trk⟩ := v
    have h := mutCount_runHandler tag env rest extra
    simp only [hd]
    cases he : (runHandler tag env rest extra).err with
    | none => simpa [mutCount] using h
    | some e =>
      by_cases hu : (runHandler tag env rest extra).isUserError = true <;>
        simpa [he, hu, mutCount] using h

/-- The receiver's allow-incoming preference read either answered `true`
or failed (in which case the callers proceed as if it were enabled). -/
def allowedOrFailed (env : Env) (uid : String) : Prop :=
  env.getAllowIncomingTaskRequestsPreference uid = .ok true ∨
    ∃ e, env.getAllowIncomingTaskRequestsPreference uid = .error e

theorem runAddCommand_no_sendIssue (env : Env) (args : List String) (extra : CommandArgs)
    (s rcv m d pid : String) :
    LMCall.sendIssue s rcv m d pid ∉ (runAddCommand env args extra).fx.lmCalls := by
  unfold runAddCommand
  by_cases hm : String.intercalate " " args = ""
  · simp [hm]
  · rw [if_neg hm]
    cases h1 : env.addIssue extra.userId (String.intercalate " " args) "" "" with
    | error e => simp
    | ok ni =>
      cases h2 : env.getIssueList extra.userId MyListKey with
      | error e2 => simp
      | ok iss => simp

def reqAddPlain : HTTPRequest := { path := "/add", userIDHeader := "alice", message := "hi" }

def reqAddSend : HTTPRequest :=
  { path := "/add", userIDHeader := "alice", message := "hi", sendTo := "bob" }

/-- C4: `SendIssue` is only reachable (in the chat send command and in the
HTTP add handler) after the receiver's username resolved and the receiver's
allow-incoming preference read `true` or failed (failure is treated as
enabled); when the preference reads `false` the caller is told the receiver
blocks requests and no List Manager mutation happens. -/
theorem send_requires_resolution_and_permission :
    (∀ (env : Env) (args : List String) (extra : CommandArgs) (s rcv m d pid : String),
      LMCall.sendIssue s rcv m d pid ∈ (runSendCommand env args extra).fx.lmCalls →
      ∃ u rest user, args = u :: rest ∧ env.getUserByUsername (stripAt u) = .ok user ∧
        rcv = user.id ∧ user.id ≠ extra.userId ∧ allowedOrFailed env user.id) ∧
    (∀ (env : Env) (a0 a1 : String) (rest : List String) (extra : CommandArgs) (user : User),
      env.getUserByUsername (stripAt a0) = .ok user → user.id ≠ extra.userId →
      env.getAllowIncomingTaskRequestsPreference user.id = .ok false →
      runSendCommand env (a0 :: a1 :: rest) extra =
        ⟨{ posts := ["@" ++ stripAt a0 ++ "은(는) Todo 요청을 차단 중입니다"] }, false, none⟩) ∧
    (∀ (env : Env) (r : HTTPRequest) (s rcv m d pid : String),
      LMCall.sendIssue s rcv m d pid ∈ (handleAdd env r).lmCalls →
      ∃ user, r.sendTo ≠ "" ∧ env.getUserByUsername r.sendTo = .ok user ∧
        rcv = user.id ∧ user.id ≠ r.userIDHeader ∧ allowedOrFailed env user.id) ∧
    (∀ (env : Env) (r : HTTPRequest) (user : User),
      r.userIDHeader ≠ "" → r.bodyValid = true → r.sendTo ≠ "" →
      env.getUserByUsername r.sendTo = .ok user → user.id ≠ r.userIDHeader →
      env.getAllowIncomingTaskRequestsPreference user.id = .ok false →
      handleAdd env r =
        { lmCalls := [.getUserName r.userIDHeader],
          dms := [(r.userIDHeader, "@" ++ user.username ++ "은(는) Todo 요청을 차단했습니다.")] }) := by
  refine ⟨?_, ?_, ?_, ?_⟩
  · intro env args extra s rcv m d pid hmem
    match args with
    | [] => simp [runSendCommand] at hmem
    | [a] => simp [runSendCommand] at hmem
    | a0 :: a1 :: rest =>
      simp only [runSendCommand] at hmem
      cases h1 : env.getUserByUsername (stripAt a0) with
      | error e => simp [h1] at hmem
      | ok receiver =>
        simp only [h1] at hmem
        by_cases hself : receiver.id = extra.userId
        · rw [if_pos hself] at hmem
          exact absurd hmem (runAddCommand_no_sendIssue env (a1 :: rest) extra s rcv m d pid)
        · rw [if_neg hself] at hmem
          cases hp : env.getAllowIncomingTaskRequestsPreference receiver.id with
          | error ep =>
            simp only [hp] at hmem
            cases h2 : env.sendIssue extra.userId receiver.id
                (String.intercalate " " (a1 :: rest)) "" "" with
            | error e2 =>
              simp [h2] at hmem
              exact ⟨a0, a1 :: rest, receiver, rfl, h1, hmem.2.1, hself, .inr ⟨ep, hp⟩⟩
            | ok rid =>
              simp [h2] at hmem
              exact ⟨a0, a1 :: rest, receiver, rfl, h1, hmem.2.1, hself, .inr ⟨ep, hp⟩⟩
          | ok b =>
            simp only [hp] at hmem
            cases b with
            | false => simp at hmem
            | true =>
              simp only [Bool.true_eq_false, if_false] at hmem
              cases h2 : env.sendIssue extra.userId receiver.id
                  (String.intercalate " " (a1 :: rest)) "" "" with
              | error e2 =>
                simp [h2] at hmem
                exact ⟨a0, a1 :: rest, receiver, rfl, h1, hmem.2.1, hself, .inl hp⟩
              | ok rid =>
                simp [h2] at hmem
                exact ⟨a0, a1 :: rest, receiver, rfl, h1, hmem.2.1, hself, .inl hp⟩
  · intro env a0 a1 rest extra user h1 hid hp
    simp [runSendCommand, h1, hid, hp]
  · intro env r s rcv m d pid hmem
    unfold handleAdd at hmem
    by_cases hauth : r.userIDHeader = ""
    · simp [hauth, unauthorized] at hmem
    · rw [if_neg hauth] at hmem
      by_cases hbody : r.bodyValid = false
      · simp [hbody, decodeFailure] at hmem
      · rw [if_neg hbody] at hmem
        by_cases hsend : r.sendTo = ""
        · rw [if_pos hsend] at hmem
          cases h2 : env.addIssue r.userIDHeader r.message r.description r.postID with
          | error e => simp [h2] at hmem
          | ok ni => simp [h2] at hmem
        · rw [if_neg hsend] at hmem
          cases h1 : env.getUserByUsername r.sendTo with
          | error e => simp [h1] at hmem
          | ok receiver =>
            simp only [h1] at hmem
            by_cases hself : receiver.id = r.userIDHeader
            · rw [if_pos hself] at hmem
              cases h2 : env.addIssue r.userIDHeader r.message r.description r.postID with
              | error e => simp [h2] at hmem
              | ok ni => simp [h2] at hmem
            · rw [if_neg hself] at hmem
              cases hp : env.getAllowIncomingTaskRequestsPreference receiver.id with
              | error ep =>
                simp only [hp] at hmem
                cases h2 : env.sendIssue r.userIDHeader receiver.id r.message
                    r.description r.postID with
                | error e2 =>
                  simp [h2] at hmem
                  exact ⟨receiver, hsend, rfl, hmem.2.1, hself, .inr ⟨ep, hp⟩⟩
                | ok rid =>
                  simp [h2] at hmem
                  exact ⟨receiver, hsend, rfl, hmem.2.1, hself, .inr ⟨ep, hp⟩⟩
              | ok b =>
                simp only [hp] at hmem
                cases b with
                | false => simp at hmem
                | true =>
                  simp only [Bool.true_eq_false, if_false] at hmem
                  cases h2 : env.sendIssue r.userIDHeader receiver.id r.message
                      r.description r.postID with
                  | error e2 =>
                    simp [h2] at hmem
                    exact ⟨receiver, hsend, rfl, hmem.2.1, hself, .inl hp⟩
                  | ok rid =>
                    simp [h2] at hmem
                    exact ⟨receiver, hsend, rfl, hmem.2.1, hself, .inl hp⟩
  · intro env r user hauth hbody hsend h1 hid hp
    unfold handleAdd
    rw [if_neg hauth]
    simp [hbody, hsend, h1, hid, hp]

/-- Closed instance of `send_requires_resolution_and_permission`: with the
receiver declining requests, both the chat send command and the HTTP add
handler post the blocking notice and perform no List Manager mutation. -/
theorem send_requires_resolution_and_permission_witness :
    runSendCommand envBlocked ["@bob", "hi"] popArgs =
      ⟨{ posts := ["@bob은(는) Todo 요청을 차단 중입니다"] }, false, none⟩ ∧
    handleAdd envBlocked reqAddSend =
      { lmCalls := [.getUserName "alice"],
        dms := [("alice", "@bob은(는) Todo 요청을 차단했습니다.")] } := by
  constructor
  · exact send_requires_resolution_and_permission.2.1 envBlocked "@bob" "hi" [] popArgs
      ⟨"uid-bob", "bob"⟩ rfl (by decide) rfl
  · exact send_requires_resolution_and_permission.2.2.2 envBlocked reqAddSend
      ⟨"uid-bob", "bob"⟩ (by decide) rfl (by decide) rfl (by decide) rfl

/-- The handler performed either no core List Manager call or exactly the
one given call. -/
def coreOnly (o : HTTPOut) (c : LMCall) : Prop :=
  coreCalls o = [] ∨ coreCalls o = [c]

theorem coreOnly_handleList (env : Env) (r : HTTPRequest) :
    coreOnly (handleList env r) (.getIssueList r.userIDHeader (httpListKey r.listQuery)) := by
  unfold coreOnly coreCalls handleList
  by_cases hauth : r.userIDHeader = ""
  · left
    simp [hauth, unauthorized]
  · rw [if_neg hauth]
    cases h1 : env.getIssueList r.userIDHeader (httpListKey r.listQuery) with
    | error e => right; simp [h1, List.filter, LMCall.isCore]
    | ok iss =>
      right
      simp only [h1]
      repeat' split
      all_goals simp [List.filter, LMCall.isCore]

theorem coreOnly_handleEdit (env : Env) (r : HTTPRequest) :
    coreOnly (handleEdit env r) (.editIssue r.userIDHeader r.reqID r.message r.description) := by
  unfold coreOnly coreCalls handleEdit
  by_cases hauth : r.userIDHeader = ""
  · left; simp [hauth, unauthorized]
  · rw [if_neg hauth]
    by_cases hbody : r.bodyValid = false
    · left; simp [hbody, decodeFailure]
    · rw [if_neg hbody]
      cases h1 : env.editIssue r.userIDHeader r.reqID r.message r.description with
      | error e => right; simp [h1, List.filter, LMCall.isCore]
      | ok t =>
        obtain ⟨f, l, om⟩ := t
        right
        by_cases hf : f = "" <;> simp [h1, hf, List.filter, LMCall.isCore]

theorem coreOnly_handleComplete (env : Env) (r : HTTPRequest) :
    coreOnly (handleComplete env r) (.completeIssue r.userIDHeader r.reqID) := by
  unfold coreOnly coreCalls handleComplete
  by_cases hauth : r.userIDHeader = ""
  · left; simp [hauth, unauthorized]
  · rw [if_neg hauth]
    by_cases hbody : r.bodyValid = false
    · left; simp [hbody, decodeFailure]
    · rw [if_neg hbody]
      cases h1 : env.completeIssue r.userIDHeader r.reqID with
      | error e => right; simp [h1, List.filter, LMCall.isCore]
      | ok t =>
        obtain ⟨issue, fid, l⟩ := t
        right
        by_cases hf : fid = "" <;> simp [h1, hf, List.filter, LMCall.isCore]

theorem coreOnly_handleAccept (env : Env) (r : HTTPRequest) :
    coreOnly (handleAccept env r) (.acceptIssue r.userIDHeader r.reqID) := by
  unfold coreOnly coreCalls handleAccept
  by_cases hauth : r.userIDHeader = ""
  · left; simp [hauth, unauthorized]
  · rw [if_neg hauth]
    by_cases hbody : r.bodyValid = false
    · left; simp [hbody, decodeFailure]
    · rw [if_neg hbody]
      cases h1 : env.acceptIssue r.userIDHeader r.reqID with
      | error e => right; simp [h1, List.filter, LMCall.isCore]
      | ok t =>
        obtain ⟨tm, sender⟩ := t
        right; simp [h1, List.filter, LMCall.isCore]

theorem coreOnly_handleRemove (env : Env) (r : HTTPRequest) :
    coreOnly (handleRemove env r) (.removeIssue r.userIDHeader r.reqID) := by
  unfold coreOnly coreCalls handleRemove
  by_cases hauth : r.userIDHeader = ""
  · left; simp [hauth, unauthorized]
  · rw [if_neg hauth]
    by_cases hbody : r.bodyValid = false
    · left; simp [hbody, decodeFailure]
    · rw [if_neg hbody]
      cases h1 : env.removeIssue r.userIDHeader r.reqID with
      | error e => right; simp [h1, List.filter, LMCall.isCore]
      | ok t =>
        obtain ⟨issue, fid, isS, l⟩ := t
        right
        by_cases hf : fid = "" <;> simp [h1, hf, List.filter, LMCall.isCore]

theorem coreOnly_handleBump (env : Env) (r : HTTPRequest) :
    coreOnly (handleBump env r) (.bumpIssue r.userIDHeader r.reqID) := by
  unfold coreOnly coreCalls handleBump
  by_cases hauth : r.userIDHeader = ""
  · left; simp [hauth, unauthorized]
  · rw [if_neg hauth]
    by_cases hbody : r.bodyValid = false
    · left; simp [hbody, decodeFailure]
    · rw [if_neg hbody]
      cases h1 : env.bumpIssue r.userIDHeader r.reqID with
      | error e => right; simp [h1, List.filter, LMCall.isCore]
      | ok t =>
        obtain ⟨tm, fu, fiid⟩ := t
        right
        by_cases hf : fu = "" <;> simp [h1, hf, List.filter, LMCall.isCore]

theorem coreCalls_handleChangeAssignment (env : Env) (r : HTTPRequest) :
    coreCalls (handleChangeAssignment env r) = [] ∨
      ∃ rcv, coreCalls (handleChangeAssignment env r) =
        [.changeAssignment r.reqID r.userIDHeader rcv] := by
  unfold coreCalls handleChangeAssignment
  by_cases hauth : r.userIDHeader = ""
  · left; simp [hauth, unauthorized]
  · rw [if_neg hauth]
    by_cases hbody : r.bodyValid = false
    · left; simp [hbody, decodeFailure]
    · rw [if_neg hbody]
      by_cases hsend : r.sendTo = ""
      · left; simp [hsend]
      · rw [if_neg hsend]
        cases h1 : env.getUserByUsername r.sendTo with
        | error e => left; simp [h1]
        | ok receiver =>
          cases h2 : env.changeAssignment r.reqID r.userIDHeader receiver.id with
          | error e =>
            right
            exact ⟨receiver.id, by simp [h1, h2, List.filter, LMCall.isCore]⟩
          | ok t =>
            obtain ⟨im, oo⟩ := t
            right
            refine ⟨receiver.id, ?_⟩
            by_cases hrcv : receiver.id = r.userIDHeader <;>
              by_cases hoo : oo = "" <;>
                (simp only [h1, h2]; simp [hrcv, hoo, List.filter, LMCall.isCore])

theorem coreCalls_handleAdd (env : Env) (r : HTTPRequest) :
    coreCalls (handleAdd env r) = [] ∨
      coreCalls (handleAdd env r) =
        [.addIssue r.userIDHeader r.message r.description r.postID] ∨
      ∃ rcv, coreCalls (handleAdd env r) =
        [.sendIssue r.userIDHeader rcv r.message r.description r.postID] := by
  unfold coreCalls handleAdd
  by_cases hauth : r.userIDHeader = ""
  · left; simp [hauth, unauthorized]
  · rw [if_neg hauth]
    by_cases hbody : r.bodyValid = false
    · left; simp [hbody, decodeFailure]
    · rw [if_neg hbody]
      by_cases hsend : r.sendTo = ""
      · rw [if_pos hsend]
        cases h2 : env.addIssue r.userIDHeader r.message r.description r.postID with
        | error e => right; left; simp [h2, List.filter, LMCall.isCore]
        | ok ni => right; left; simp [h2, List.filter, LMCall.isCore]
      · rw [if_neg hsend]
        cases h1 : env.getUserByUsername r.sendTo with
        | error e => left; simp [h1, List.filter, LMCall.isCore]
        | ok receiver =>
          simp only [h1]
          by_cases hself : receiver.id = r.userIDHeader
          · rw [if_pos hself]
            cases h2 : env.addIssue r.userIDHeader r.message r.description r.postID with
            | error e => right; left; simp [h2, List.filter, LMCall.isCore]
            | ok ni => right; left; simp [h2, List.filter, LMCall.isCore]
          · rw [if_neg hself]
            cases hp : env.getAllowIncomingTaskRequestsPreference receiver.id with
            | error ep =>
              cases h2 : env.sendIssue r.userIDHeader receiver.id r.message
                  r.description r.postID with
              | error e2 =>
                right; right
                exact ⟨receiver.id, by simp [hp, h2, List.filter, LMCall.isCore]⟩
              | ok rid =>
                right; right
                exact ⟨receiver.id, by simp [hp, h2, List.filter, LMCall.isCore]⟩
            | ok b =>
              cases b with
              | false => left; simp [hp, List.filter, LMCall.isCore]
              | true =>
                cases h2 : env.sendIssue r.userIDHeader receiver.id r.message
                    r.description r.postID with
                | error e2 =>
                  right; right
                  exact ⟨receiver.id, by simp [hp, h2, List.filter, LMCall.isCore]⟩
                | ok rid =>
                  right; right
                  exact ⟨receiver.id, by simp [hp, h2, List.filter, LMCall.isCore]⟩

/-- C5 counterexample: the HTTP add handler does not invoke exactly one
fixed List Manager operation per request name: on a plain add it performs
two interface calls (`GetUserName` then `AddIssue`), and on an add
addressed to a blocked receiver it performs no core list operation at
all. -/
theorem http_add_not_single_fixed_op :
    (handleAdd baseEnv reqAddPlain).lmCalls =
      [.getUserName "alice", .addIssue "alice" "hi" "" ""] ∧
    (handleAdd baseEnv reqAddPlain).lmCalls.length ≠ 1 ∧
    coreCalls (handleAdd envBlocked reqAddSend) = [] := by
  refine ⟨rfl, by decide, by decide⟩

def envRemoveFail : Env :=
  { baseEnv with removeIssue := fun _ _ => .error "boom" }

def reqRemove : HTTPRequest := { path := "/remove", userIDHeader := "alice", reqID := "i1" }

/-- C5 amended: each HTTP handler performs at most one core List Manager
operation, of the kind fixed by the request name (add selects `AddIssue` or
`SendIssue` by the send-to field and may select neither when the receiver
blocks requests), possibly alongside read-only `GetUserName` lookups, and a
failing operation is answered with a structured error carrying a title and
the error text as details. -/
theorem http_handlers_at_most_one_core_op (env : Env) (r : HTTPRequest) :
    (coreCalls (handleAdd env r)).length ≤ 1 ∧
    (∀ c ∈ coreCalls (handleAdd env r),
      c = .addIssue r.userIDHeader r.message r.description r.postID ∨
      ∃ rcv, c = .sendIssue r.userIDHeader rcv r.message r.description r.postID) ∧
    coreOnly (handleList env r) (.getIssueList r.userIDHeader (httpListKey r.listQuery)) ∧
    coreOnly (handleEdit env r) (.editIssue r.userIDHeader r.reqID r.message r.description) ∧
    coreOnly (handleComplete env r) (.completeIssue r.userIDHeader r.reqID) ∧
    coreOnly (handleAccept env r) (.acceptIssue r.userIDHeader r.reqID) ∧
    coreOnly (handleRemove env r) (.removeIssue r.userIDHeader r.reqID) ∧
    coreOnly (handleBump env r) (.bumpIssue r.userIDHeader r.reqID) ∧
    (coreCalls (handleChangeAssignment env r)).length ≤ 1 ∧
    (∀ c ∈ coreCalls (handleChangeAssignment env r),
      ∃ rcv, c = .changeAssignment r.reqID r.userIDHeader rcv) ∧
    (∀ e, r.userIDHeader ≠ "" → r.bodyValid = true →
      env.removeIssue r.userIDHeader r.reqID = .error e →
      (handleRemove env r).status = some 500 ∧
      (handleRemove env r).errorBody = some ("Unable to remove issue", e)) := by
  refine ⟨?_, ?_, coreOnly_handleList env r, coreOnly_handleEdit env r,
    coreOnly_handleComplete env r, coreOnly_handleAccept env r,
    coreOnly_handleRemove env r, coreOnly_handleBump env r, ?_, ?_, ?_⟩
  · rcases coreCalls_handleAdd env r with h | h | ⟨rcv, h⟩ <;> simp [h]
  · intro c hc
    rcases coreCalls_handleAdd env r with h | h | ⟨rcv, h⟩ <;> rw [h] at hc <;> simp at hc
    · left; exact hc
    · right; exact ⟨rcv, hc⟩
  · rcases coreCalls_handleChangeAssignment env r with h | ⟨rcv, h⟩ <;> simp [h]
  · intro c hc
    rcases coreCalls_handleChangeAssignment env r with h | ⟨rcv, h⟩ <;> rw [h] at hc <;>
      simp at hc
    exact ⟨rcv, hc⟩
  · intro e hauth hbody h
    unfold handleRemove
    rw [if_neg hauth]
    simp [hbody, h]

/-- Closed instance of `http_handlers_at_most_one_core_op`: the plain add
request performs at most one core operation, and a failing remove is
answered with the structured error (title, details). -/
theorem http_handlers_at_most_one_core_op_witness :
    (coreCalls (handleAdd baseEnv reqAddPlain)).length ≤ 1 ∧
    ((handleRemove envRemoveFail reqRemove).status = some 500 ∧
     (handleRemove envRemoveFail reqRemove).errorBody = some ("Unable to remove issue", "boom")) :=
  ⟨(http_handlers_at_most_one_core_op baseEnv reqAddPlain).1,
   (http_handlers_at_most_one_core_op envRemoveFail reqRemove).2.2.2.2.2.2.2.2.2.2 "boom"
     (by decide) rfl rfl⟩

def removedLinkedIssue : Issue := { id := "i1", message := "hi", description := "", postID := "" }

def envRemoveSender : Env :=
  { baseEnv with removeIssue := fun _ _ => Except.ok (removedLinkedIssue, "bob", true, MyListKey) }

/-- C6: after a successful `RemoveIssue` with a non-empty foreign ID, the
remove handler picks the notification by `isSender`: the sender side gets
the "rejected" wording and an Out-list refresh, otherwise the "removed"
wording and an In-list refresh. -/
theorem remove_notification_by_isSender (env : Env) (r : HTTPRequest)
    (issue : Issue) (foreignID : String) (isSender : Bool) (listToUpdate : String)
    (hauth : r.userIDHeader ≠ "") (hbody : r.bodyValid = true)
    (h : env.removeIssue r.userIDHeader r.reqID = .ok (issue, foreignID, isSender, listToUpdate))
    (hf : foreignID ≠ "") :
    (isSender = true →
      (handleRemove env r).dms = [(foreignID,
        "@" ++ env.getUserName r.userIDHeader ++ "이(가) 내가 보낸 Todo를 거절했습니다: " ++ issue.message)] ∧
      (foreignID, [OutListKey]) ∈ (handleRemove env r).refreshes) ∧
    (isSender = false →
      (handleRemove env r).dms = [(foreignID,
        "@" ++ env.getUserName r.userIDHeader ++ "이(가) 내가 받은 Todo를 제거했습니다: " ++ issue.message)] ∧
      (foreignID, [InListKey]) ∈ (handleRemove env r).refreshes) := by
  unfold handleRemove
  rw [if_neg hauth]
  constructor <;> intro hs <;> subst hs <;> simp [hbody, h, hf]

/-- Closed instance of `remove_notification_by_isSender`: a sender removing
a linked issue triggers the "rejected" DM and the foreign Out-list
refresh. -/
theorem remove_notification_by_isSender_witness :
    (handleRemove envRemoveSender reqRemove).dms =
      [("bob", "@alice이(가) 내가 보낸 Todo를 거절했습니다: hi")] ∧
    ("bob", [OutListKey]) ∈ (handleRemove envRemoveSender reqRemove).refreshes :=
  (remove_notification_by_isSender envRemoveSender reqRemove
    removedLinkedIssue "bob" true MyListKey
    (by decide) rfl rfl (by decide)).1 rfl

/-- C7 counterexample: an add command whose message is empty surfaces no
error at all — the handler returns (false, nil), makes no List Manager
call, and the dispatcher posts only the prompt, with no user-error reply
and no log. -/
theorem empty_add_reports_no_error :
    (runAddCommand baseEnv [] addEmptyArgs).err = none ∧
    (runAddCommand baseEnv [] addEmptyArgs).isUserError = false ∧
    (runAddCommand baseEnv [] addEmptyArgs).fx.lmCalls = [] ∧
    executeCommand baseEnv addEmptyArgs =
      { posts := ["Task를 추가하세요."], tracks := ["command:add"] } := by
  refine ⟨rfl, rfl, rfl, by decide⟩

/-- C7 amended: for every add command whose joined message is empty, no
issue is created (no List Manager call happens) and the user is shown a
prompt to supply a task; the handler reports no error of either kind
rather than surfacing a validation/user error. -/
theorem empty_add_prompts_without_error (env : Env) (args : List String)
    (extra : CommandArgs) (h : String.intercalate " " args = "") :
    runAddCommand env args extra =
      ⟨{ posts := ["Task를 추가하세요."] }, false, none⟩ := by
  simp [runAddCommand, h]

/-- Closed instance of `empty_add_prompts_without_error` at the empty
argument list. -/
theorem empty_add_prompts_without_error_witness :
    runAddCommand baseEnv [] addEmptyArgs =
      ⟨{ posts := ["Task를 추가하세요."] }, false, none⟩ :=
  empty_add_prompts_without_error baseEnv [] addEmptyArgs rfl

theorem lmCalls_listFetch (env : Env) (extra : CommandArgs) (listID header : String) :
    (listFetch env extra listID header).fx.lmCalls = [.getIssueList extra.userId listID] := by
  unfold listFetch
  cases h : env.getIssueList extra.userId listID <;> simp [h]

/-- C8: the chat list command maps the flags "in"/"out"/"my"/absent to the
In/Out/My list keys, and any other flag yields the help reply classified as
a user error with no `GetIssueList` call; the HTTP list handler maps the
query parameter the same way except that an unrecognized value falls back
to the My list. -/
theorem list_flag_selection :
    (∀ (env : Env) (extra : CommandArgs),
      (runListCommand env [] extra).fx.lmCalls = [.getIssueList extra.userId MyListKey]) ∧
    (∀ (env : Env) (rest : List String) (extra : CommandArgs),
      (runListCommand env (MyFlag :: rest) extra).fx.lmCalls =
        [.getIssueList extra.userId MyListKey]) ∧
    (∀ (env : Env) (rest : List String) (extra : CommandArgs),
      (runListCommand env (InFlag :: rest) extra).fx.lmCalls =
        [.getIssueList extra.userId InListKey]) ∧
    (∀ (env : Env) (rest : List String) (extra : CommandArgs),
      (runListCommand env (OutFlag :: rest) extra).fx.lmCalls =
        [.getIssueList extra.userId OutListKey]) ∧
    (∀ (env : Env) (f : String) (rest : List String) (extra : CommandArgs),
      f ≠ MyFlag → f ≠ InFlag → f ≠ OutFlag →
      runListCommand env (f :: rest) extra = ⟨{ posts := [getHelp] }, true, none⟩) ∧
    (∀ (env : Env) (r : HTTPRequest), r.userIDHeader ≠ "" →
      (handleList env r).lmCalls =
        [.getIssueList r.userIDHeader (httpListKey r.listQuery)]) ∧
    httpListKey OutFlag = OutListKey ∧ httpListKey InFlag = InListKey ∧
    (∀ s, s ≠ OutFlag → s ≠ InFlag → httpListKey s = MyListKey) := by
  refine ⟨?_, ?_, ?_, ?_, ?_, ?_, by decide, by decide, ?_⟩
  · intro env extra
    simp [runListCommand, lmCalls_listFetch]
  · intro env rest extra
    simp [runListCommand, lmCalls_listFetch]
  · intro env rest extra
    simp [runListCommand, lmCalls_listFetch, InFlag, MyFlag]
  · intro env rest extra
    simp [runListCommand, lmCalls_listFetch, OutFlag, MyFlag, InFlag]
  · intro env f rest extra h1 h2 h3
    simp [runListCommand, h1, h2, h3]
  · intro env r hauth
    unfold handleList
    rw [if_neg hauth]
    cases h1 : env.getIssueList r.userIDHeader (httpListKey r.listQuery) with
    | error e => simp [h1]
    | ok iss =>
      simp only [h1]
      repeat' split
      all_goals simp
  · intro s h1 h2
    simp [httpListKey, h1, h2]

def reqListIn : HTTPRequest := { path := "/list", userIDHeader := "alice", listQuery := "in" }

/-- Closed instance of `list_flag_selection`: an unknown chat flag yields
the help reply as a user error, and the HTTP handler with `list=in` fetches
the In list. -/
theorem list_flag_selection_witness :
    runListCommand baseEnv ["yours"] popArgs = ⟨{ posts := [getHelp] }, true, none⟩ ∧
    (handleList baseEnv reqListIn).lmCalls = [.getIssueList "alice" (httpListKey "in")] :=
  ⟨list_flag_selection.2.2.2.2.1 baseEnv "yours" [] popArgs (by decide) (by decide) (by decide),
   list_flag_selection.2.2.2.2.2.1 baseEnv reqListIn (by decide)⟩

def envSelf : Env := { baseEnv with getUserByUsername := fun n => .ok ⟨"alice", n⟩ }

def reqAddSelf : HTTPRequest :=
  { path := "/add", userIDHeader := "alice", message := "hi", sendTo := "alice" }

/-- C9: when the resolved receiver is the caller, both paths degrade to
`AddIssue`: the chat send command delegates to the add handler (which never
calls `SendIssue`), and the HTTP add handler runs its own-list `AddIssue`
branch; `SendIssue` is never invoked, so no linked pair is created. -/
theorem self_send_degrades_to_add :
    (∀ (env : Env) (a0 a1 : String) (rest : List String) (extra : CommandArgs) (user : User),
      env.getUserByUsername (stripAt a0) = .ok user → user.id = extra.userId →
      runSendCommand env (a0 :: a1 :: rest) extra = runAddCommand env (a1 :: rest) extra) ∧
    (∀ (env : Env) (args : List String) (extra : CommandArgs) (s rcv m d pid : String),
      LMCall.sendIssue s rcv m d pid ∉ (runAddCommand env args extra).fx.lmCalls) ∧
    (∀ (env : Env) (r : HTTPRequest) (user : User),
      r.userIDHeader ≠ "" → r.bodyValid = true → r.sendTo ≠ "" →
      env.getUserByUsername r.sendTo = .ok user → user.id = r.userIDHeader →
      (LMCall.addIssue r.userIDHeader r.message r.description r.postID ∈
        (handleAdd env r).lmCalls) ∧
      ∀ s rcv m d pid, LMCall.sendIssue s rcv m d pid ∉ (handleAdd env r).lmCalls) := by
  refine ⟨?_, runAddCommand_no_sendIssue, ?_⟩
  · intro env a0 a1 rest extra user h1 hid
    simp [runSendCommand, h1, hid]
  · intro env r user hauth hbody hsend h1 hid
    unfold handleAdd
    rw [if_neg hauth]
    constructor
    · cases h2 : env.addIssue r.userIDHeader r.message r.description r.postID <;>
        simp [hbody, hsend, h1, hid, h2]
    · intro s rcv m d pid
      cases h2 : env.addIssue r.userIDHeader r.message r.description r.postID <;>
        simp [hbody, hsend, h1, hid, h2]

/-- Closed instance of `self_send_degrades_to_add`: with the directory
resolving every name to the caller's ID, the chat send equals the add
command on the remaining words, and the HTTP handler calls `AddIssue`. -/
theorem self_send_degrades_to_add_witness :
    runSendCommand envSelf ["@alice", "hi"] popArgs = runAddCommand envSelf ["hi"] popArgs ∧
    LMCall.addIssue "alice" "hi" "" "" ∈ (handleAdd envSelf reqAddSelf).lmCalls :=
  ⟨self_send_degrades_to_add.1 envSelf "@alice" "hi" [] popArgs ⟨"alice", "alice"⟩
      rfl rfl,
   (self_send_degrades_to_add.2.2 envSelf reqAddSelf ⟨"alice", "alice"⟩
      (by decide) rfl (by decide) rfl rfl).1⟩

/-- The paths routed by `ServeHTTP`. -/
def httpRoutes : List String :=
  ["/add", "/list", "/remove", "/complete", "/accept", "/bump",
   "/telemetry", "/config", "/edit", "/change_assignment"]

/-- C10: every handler reachable through `ServeHTTP` first checks the
`Mattermost-User-ID` header; with an empty header the response is exactly
the 401 Not authorized output, whose trace holds no List Manager call, no
refresh, no message and no save — no state change at all. -/
theorem empty_user_header_unauthorized (env : Env) (r : HTTPRequest)
    (hauth : r.userIDHeader = "") (hroute : r.path ∈ httpRoutes) :
    serveHTTP env r = unauthorized := by
  unfold httpRoutes at hroute
  simp only [List.mem_cons, List.not_mem_nil, or_false] at hroute
  unfold serveHTTP
  rcases hroute with h | h | h | h | h | h | h | h | h | h <;>
    simp [h, hauth, handleAdd, handleList, handleRemove, handleComplete, handleAccept,
      handleBump, handleTelemetry, handleConfig, handleEdit, handleChangeAssignment]

def reqNoAuth : HTTPRequest := { path := "/complete", userIDHeader := "", reqID := "i1" }

/-- Closed instance of `empty_user_header_unauthorized` on the complete
route. -/
theorem empty_user_header_unauthorized_witness :
    serveHTTP baseEnv reqNoAuth = unauthorized :=
  empty_user_header_unauthorized baseEnv reqNoAuth rfl (by decide)

end Todo

